import Mathlib

/-!
sponsorship-notify: webhook verification and notification pipeline.

A shallow embedding of `main.go` (functions `verifySignature`, `extractMediaID`,
`post`, `handleWebhook`) together with the parts of the Go standard library
they rely on: `hex.EncodeToString`, `subtle.ConstantTimeCompare`, and
`json.Unmarshal` into the two structs the program decodes.

Go strings and byte slices are byte sequences; both are `Bytes` here.
Parameters (`Env`): the HMAC-SHA256 digest, the network behind `httpClient.Do`,
the embedded `image.png`, and the decoders of the go-github event fields that
`main.go` does not read. `log.Fatal` ends the process; a run of the handler
therefore ends either with an HTTP response or with a process exit.
-/

namespace SponsorshipNotify

/-! ## Bytes and UTF-8 -/

/-- A Go `string` or `[]byte`. -/
abbrev Bytes := List UInt8

/-- Go `utf8.AppendRune`: the UTF-8 encoding of a code point; surrogates and
values above U+10FFFF are written as U+FFFD. -/
def encodeRune (r : Nat) : Bytes :=
  if r < 0x80 then [r.toUInt8]
  else if r < 0x800 then [(0xC0 + r / 64).toUInt8, (0x80 + r % 64).toUInt8]
  else if r > 0x10FFFF ∨ (0xD800 ≤ r ∧ r ≤ 0xDFFF) then [0xEF, 0xBF, 0xBD]
  else if r < 0x10000 then
    [(0xE0 + r / 4096).toUInt8, (0x80 + r / 64 % 64).toUInt8, (0x80 + r % 64).toUInt8]
  else
    [(0xF0 + r / 262144).toUInt8, (0x80 + r / 4096 % 64).toUInt8,
     (0x80 + r / 64 % 64).toUInt8, (0x80 + r % 64).toUInt8]

/-- The bytes of a Go string literal (Go source text is UTF-8). -/
def bytesOf (s : String) : Bytes := s.data.flatMap fun c => encodeRune c.toNat

/-! ## encoding/hex and crypto/subtle -/

/-- Go `encoding/hex`: `const hextable = "0123456789abcdef"`. -/
def hextable : Bytes := bytesOf "0123456789abcdef"

/-- Go `hex.EncodeToString`: every byte `v` becomes `hextable[v>>4]`, `hextable[v&0x0f]`. -/
def hexEncodeToString (src : Bytes) : Bytes :=
  src.flatMap fun v => [hextable.getD (v.toNat / 16) 0, hextable.getD (v.toNat % 16) 0]

/-- Go `subtle.ConstantTimeByteEq(x, y uint8) int`, which is
`int((uint32(x^y) - 1) >> 31)`; the subtraction wraps modulo `2^32`. -/
def constantTimeByteEq (x y : Nat) : Nat :=
  ((x ^^^ y) + 4294967295) % 4294967296 / 2147483648

/-- Go `subtle.ConstantTimeCompare`: 0 when the lengths differ, otherwise the
exclusive-ors of all byte pairs are or-ed into one byte `v`, and the result is
`ConstantTimeByteEq(v, 0)`. The accumulator never exceeds 255, so no wrap occurs. -/
def constantTimeCompare (x y : Bytes) : Nat :=
  if x.length ≠ y.length then 0
  else constantTimeByteEq
    ((List.zip x y).foldl (fun v p => v ||| (p.1.toNat ^^^ p.2.toNat)) 0) 0

/-- Go `hmac.Equal(mac1, mac2)`: `subtle.ConstantTimeCompare(mac1, mac2) == 1`. -/
def hmacEqual (mac1 mac2 : Bytes) : Bool := constantTimeCompare mac1 mac2 == 1

/-! ## verifySignature (main.go 147-152) -/

/-- The string `expectedMAC` built inside `verifySignature`:
`"sha256=" + hex.EncodeToString(mac.Sum(nil))`, where `mac` is HMAC-SHA256 keyed
by `secret` and fed `message`. `hmacSHA256 key message` stands for that digest. -/
def expectedMAC (hmacSHA256 : Bytes → Bytes → Bytes) (message secret : Bytes) : Bytes :=
  bytesOf "sha256=" ++ hexEncodeToString (hmacSHA256 secret message)

/-- The function `verifySignature(message []byte, messageMAC string, secret string) bool`. -/
def verifySignature (hmacSHA256 : Bytes → Bytes → Bytes)
    (message messageMAC secret : Bytes) : Bool :=
  hmacEqual messageMAC (expectedMAC hmacSHA256 message secret)

/-! ## Specification-side notions for the signature -/

/-- Lowercase hexadecimal digit of a nibble, by the usual definition:
`'0'..'9'` for 0..9 and `'a'..'f'` for 10..15. -/
def lowerHexDigit (n : Nat) : UInt8 :=
  if n < 10 then (48 + n).toUInt8 else (87 + n).toUInt8

/-- Lowercase hexadecimal encoding of a byte string, high nibble first. -/
def lowerHex (src : Bytes) : Bytes :=
  src.flatMap fun v => [lowerHexDigit (v.toNat / 16), lowerHexDigit (v.toNat % 16)]

/-- The byte string `H` with bit `k` of its byte number `i` inverted
(unchanged when `i` is past the end). -/
def flipBit : Bytes → Nat → Nat → Bytes
  | [], _, _ => []
  | b :: bs, 0, k => UInt8.ofNat (b.toNat ^^^ 2 ^ k) :: bs
  | b :: bs, i + 1, k => b :: flipBit bs i k

/-! ## encoding/json: syntax -/

/-- A JSON value as `encoding/json` reads it. String contents and object keys
are unquoted; a number keeps its literal text. Object members stay in document
order, duplicates included. -/
inductive JSON where
  | null
  | bool (b : Bool)
  | number (raw : Bytes)
  | string (s : Bytes)
  | array (elems : List JSON)
  | object (members : List (Bytes × JSON))

/-- Result of reading one value from the head of the input. -/
inductive Parsed (α : Type) where
  | ok (value : α) (rest : Bytes)
  | syntaxError
  | outOfFuel

/-- Go `isSpace` of the JSON scanner: space, tab, carriage return, line feed. -/
def isSpace (c : UInt8) : Bool := c == 0x20 || c == 0x09 || c == 0x0D || c == 0x0A

/-- Drops leading JSON white space. -/
def skipSpace : Bytes → Bytes
  | [] => []
  | c :: cs => if isSpace c then skipSpace cs else c :: cs

/-- ASCII digit `0`..`9`. -/
def isDigit (c : UInt8) : Bool := 0x30 ≤ c && c ≤ 0x39

/-- Hexadecimal digit as accepted after `\u` by the scanner (both cases). -/
def isHex (c : UInt8) : Bool :=
  isDigit c || (0x61 ≤ c && c ≤ 0x66) || (0x41 ≤ c && c ≤ 0x46)

/-- Value of a hexadecimal digit (Go `getu4`). -/
def hexVal (c : UInt8) : Nat :=
  if isDigit c then c.toNat - 0x30
  else if 0x61 ≤ c && c ≤ 0x66 then c.toNat - 0x61 + 10
  else c.toNat - 0x41 + 10

/-- The scanner state `stateInStringEsc`: the bytes allowed after a backslash
other than `u`, namely `b f n r t \ / "`. -/
def isSimpleEscape (c : UInt8) : Bool :=
  c == 0x62 || c == 0x66 || c == 0x6E || c == 0x72 || c == 0x74 ||
  c == 0x5C || c == 0x2F || c == 0x22

/-- The scanner on a string literal, started after the opening quote: returns the
raw (still escaped) contents and what follows the closing quote; `none` is a
syntax error (control byte below 0x20, bad escape, or missing closing quote). -/
def scanString : Bytes → Option (Bytes × Bytes)
  | [] => none
  | c :: cs =>
    if c == 0x22 then some ([], cs)
    else if c == 0x5C then
      match cs with
      | [] => none
      | e :: cs2 =>
        if e == 0x75 then
          match cs2 with
          | h1 :: h2 :: h3 :: h4 :: cs3 =>
            if isHex h1 && isHex h2 && isHex h3 && isHex h4 then
              match scanString cs3 with
              | some (raw, rest) => some (c :: e :: h1 :: h2 :: h3 :: h4 :: raw, rest)
              | none => none
            else none
          | _ => none
        else if isSimpleEscape e then
          match scanString cs2 with
          | some (raw, rest) => some (c :: e :: raw, rest)
          | none => none
        else none
    else if c < 0x20 then none
    else
      match scanString cs with
      | some (raw, rest) => some (c :: raw, rest)
      | none => none


/-- UTF-8 continuation byte. -/
def isCont (c : UInt8) : Bool := 0x80 ≤ c && c ≤ 0xBF

/-- Go `utf8.DecodeRune`, width only: the length of the well-formed UTF-8
sequence at the head, or 0 where Go returns `(RuneError, 1)`. -/
def runeWidth : Bytes → Nat
  | [] => 0
  | c0 :: s =>
    if c0 < 0x80 then 1
    else if 0xC2 ≤ c0 && c0 ≤ 0xDF then
      match s with
      | c1 :: _ => if isCont c1 then 2 else 0
      | _ => 0
    else if 0xE0 ≤ c0 && c0 ≤ 0xEF then
      match s with
      | c1 :: c2 :: _ =>
        let lo : UInt8 := if c0 == 0xE0 then 0xA0 else 0x80
        let hi : UInt8 := if c0 == 0xED then 0x9F else 0xBF
        if lo ≤ c1 && c1 ≤ hi && isCont c2 then 3 else 0
      | _ => 0
    else if 0xF0 ≤ c0 && c0 ≤ 0xF4 then
      match s with
      | c1 :: c2 :: c3 :: _ =>
        let lo : UInt8 := if c0 == 0xF0 then 0x90 else 0x80
        let hi : UInt8 := if c0 == 0xF4 then 0x8F else 0xBF
        if lo ≤ c1 && c1 ≤ hi && isCont c2 && isCont c3 then 4 else 0
      | _ => 0
    else 0

/-- Go `getu4`: the number written by four hexadecimal digits. -/
def hex4 (h1 h2 h3 h4 : UInt8) : Nat :=
  ((hexVal h1 * 16 + hexVal h2) * 16 + hexVal h3) * 16 + hexVal h4

/-- The byte denoted by a one-letter escape in `unquoteBytes`. -/
def escapeByte (e : UInt8) : UInt8 :=
  if e == 0x62 then 0x08
  else if e == 0x66 then 0x0C
  else if e == 0x6E then 0x0A
  else if e == 0x72 then 0x0D
  else if e == 0x74 then 0x09
  else e

/-- Go `utf16.IsSurrogate`. -/
def isSurrogate (r : Nat) : Bool := 0xD800 ≤ r && r < 0xE000

/-- Go `utf16.DecodeRune`: the code point of a surrogate pair, U+FFFD when the
two halves do not form one. -/
def utf16DecodeRune (r1 r2 : Nat) : Nat :=
  if 0xD800 ≤ r1 ∧ r1 < 0xDC00 ∧ 0xDC00 ≤ r2 ∧ r2 < 0xE000 then
    (r1 - 0xD800) * 1024 + (r2 - 0xDC00) + 0x10000
  else 0xFFFD

/-- A `\u` surrogate that found no partner is written as U+FFFD. -/
def flushPending (pending : Option Nat) : Bytes :=
  match pending with
  | some _ => encodeRune 0xFFFD
  | none => []

/-- Go `unquoteBytes` on the raw contents of a scanned string literal. The first
argument counts bytes of a well-formed multi-byte sequence still to be copied;
the second holds a `\u` surrogate read just before, waiting for its partner
(Go looks ahead with `getu4` instead). Escapes are resolved and every byte that
is not part of well-formed UTF-8 becomes U+FFFD. -/
def unquoteAux : Nat → Option Nat → Bytes → Bytes
  | _, pending, [] => flushPending pending
  | k + 1, _, c :: cs => c :: unquoteAux k none cs
  | 0, pending, c :: cs =>
    if c == 0x5C then
      match cs with
      | [] => flushPending pending
      | e :: cs2 =>
        if e == 0x75 then
          match cs2 with
          | h1 :: h2 :: h3 :: h4 :: cs3 =>
            let v := hex4 h1 h2 h3 h4
            let single : Bytes :=
              if isSurrogate v then unquoteAux 0 (some v) cs3
              else encodeRune v ++ unquoteAux 0 none cs3
            match pending with
            | some rr =>
              if utf16DecodeRune rr v != 0xFFFD then
                encodeRune (utf16DecodeRune rr v) ++ unquoteAux 0 none cs3
              else encodeRune 0xFFFD ++ single
            | none => single
          | _ => flushPending pending
        else flushPending pending ++ escapeByte e :: unquoteAux 0 none cs2
    else if c < 0x80 then flushPending pending ++ c :: unquoteAux 0 none cs
    else
      match runeWidth (c :: cs) with
      | 0 => flushPending pending ++ encodeRune 0xFFFD ++ unquoteAux 0 none cs
      | w + 1 => flushPending pending ++ c :: unquoteAux w none cs

/-- Go `unquoteBytes` (without the surrounding quotes). -/
def unquote (raw : Bytes) : Bytes := unquoteAux 0 none raw

/-- Drops leading digits. -/
def skipDigits : Bytes → Bytes
  | [] => []
  | c :: cs => if isDigit c then skipDigits cs else c :: cs

/-- Scanner states `stateE`, `stateESign`, `stateE0`: after `e` or `E`. -/
def scanExponent (s : Bytes) : Option Bytes :=
  let s1 := match s with
    | c :: cs => if c == 0x2B || c == 0x2D then cs else s
    | [] => []
  match s1 with
  | d :: ds => if isDigit d then some (skipDigits ds) else none
  | [] => none

/-- Scanner state `stateDot0` / end of the mantissa: an optional exponent. -/
def scanAfterFraction (s : Bytes) : Option Bytes :=
  match s with
  | c :: cs => if c == 0x65 || c == 0x45 then scanExponent cs else some s
  | [] => some []

/-- Scanner states `state0`, `stateDot`: after the integer part. -/
def scanAfterInteger (s : Bytes) : Option Bytes :=
  match s with
  | c :: cs =>
    if c == 0x2E then
      match cs with
      | d :: ds => if isDigit d then scanAfterFraction (skipDigits ds) else none
      | [] => none
    else scanAfterFraction s
  | [] => some []

/-- The scanner on a number literal; returns what follows it. -/
def scanNumber (s : Bytes) : Option Bytes :=
  let s1 := match s with
    | c :: cs => if c == 0x2D then cs else s
    | [] => []
  match s1 with
  | d :: ds =>
    if d == 0x30 then scanAfterInteger ds
    else if 0x31 ≤ d && d ≤ 0x39 then scanAfterInteger (skipDigits ds)
    else none
  | [] => none

/-- Go `maxNestingDepth`: the scanner fails once its stack exceeds this. -/
def maxNestingDepth : Nat := 10000

mutual
/-- One JSON value at the head of the input (white space already skipped), with
`depth` containers currently open. Recursion is on `fuel`; every call consumes
input before it calls itself again, so twice the length plus one is enough
(`parseValue_fuel`). -/
def parseValue : Nat → Nat → Bytes → Parsed JSON
  | 0, _, _ => .outOfFuel
  | fuel + 1, depth, s =>
    match s with
    | [] => .syntaxError
    | c :: cs =>
      if c == 0x7B then
        if maxNestingDepth ≤ depth then .syntaxError
        else
          match skipSpace cs with
          | [] => .syntaxError
          | d :: ds =>
            if d == 0x7D then .ok (.object []) ds
            else parseMembers fuel (depth + 1) (d :: ds) []
      else if c == 0x5B then
        if maxNestingDepth ≤ depth then .syntaxError
        else
          match skipSpace cs with
          | [] => .syntaxError
          | d :: ds =>
            if d == 0x5D then .ok (.array []) ds
            else parseElements fuel (depth + 1) (d :: ds) []
      else if c == 0x22 then
        match scanString cs with
        | some (raw, rest) => .ok (.string (unquote raw)) rest
        | none => .syntaxError
      else if c == 0x74 then
        if cs.take 3 = bytesOf "rue" then .ok (.bool true) (cs.drop 3) else .syntaxError
      else if c == 0x66 then
        if cs.take 4 = bytesOf "alse" then .ok (.bool false) (cs.drop 4) else .syntaxError
      else if c == 0x6E then
        if cs.take 3 = bytesOf "ull" then .ok .null (cs.drop 3) else .syntaxError
      else
        match scanNumber (c :: cs) with
        | some rest => .ok (.number ((c :: cs).take ((c :: cs).length - rest.length))) rest
        | none => .syntaxError
/-- The members of an object, starting at a key; `acc` holds those read so far. -/
def parseMembers : Nat → Nat → Bytes → List (Bytes × JSON) → Parsed JSON
  | 0, _, _, _ => .outOfFuel
  | fuel + 1, depth, s, acc =>
    match s with
    | [] => .syntaxError
    | q :: cs =>
      if q == 0x22 then
        match scanString cs with
        | none => .syntaxError
        | some (rawKey, rest) =>
          match skipSpace rest with
          | [] => .syntaxError
          | colon :: rest2 =>
            if colon == 0x3A then
              match parseValue fuel depth (skipSpace rest2) with
              | .ok v rest3 =>
                match skipSpace rest3 with
                | [] => .syntaxError
                | d :: rest4 =>
                  if d == 0x2C then
                    parseMembers fuel depth (skipSpace rest4) (acc ++ [(unquote rawKey, v)])
                  else if d == 0x7D then .ok (.object (acc ++ [(unquote rawKey, v)])) rest4
                  else .syntaxError
              | .syntaxError => .syntaxError
              | .outOfFuel => .outOfFuel
            else .syntaxError
      else .syntaxError
/-- The elements of an array, starting at a value; `acc` holds those read so far. -/
def parseElements : Nat → Nat → Bytes → List JSON → Parsed JSON
  | 0, _, _, _ => .outOfFuel
  | fuel + 1, depth, s, acc =>
    match parseValue fuel depth s with
    | .ok v rest =>
      match skipSpace rest with
      | [] => .syntaxError
      | d :: rest2 =>
        if d == 0x2C then parseElements fuel depth (skipSpace rest2) (acc ++ [v])
        else if d == 0x5D then .ok (.array (acc ++ [v])) rest2
        else .syntaxError
    | .syntaxError => .syntaxError
    | .outOfFuel => .outOfFuel
end


/-- Go `checkValid` followed by reading the value: a whole document is white
space, one value, white space. `none` is a `SyntaxError`. -/
def parseJSON (data : Bytes) : Option JSON :=
  match parseValue (2 * data.length + 1) 0 (skipSpace data) with
  | .ok v rest => if (skipSpace rest).isEmpty then some v else none
  | _ => none


/-! ## encoding/json: decoding into the structs of the program -/

/-- ASCII upper-casing as done by Go `appendFoldedName` for single-byte characters. -/
def toUpperASCII (c : UInt8) : UInt8 := if 0x61 ≤ c && c ≤ 0x7A then c - 0x20 else c

/-- Go `foldName`, used to match object keys to struct fields without regard to
case. ASCII letters are upper-cased; U+017F (bytes C5 BF) folds to `S` and
U+212A (bytes E2 84 AA) folds to `K`, the only non-ASCII runes whose fold is
ASCII. Every other non-ASCII rune is kept as it is here: Go maps it to another
non-ASCII rune, which makes no difference when the result is compared with the
folded name of a field whose name is ASCII. The first argument counts the
remaining bytes of a rune already folded. -/
def foldNameAux : Nat → Bytes → Bytes
  | _, [] => []
  | k + 1, _ :: rest => foldNameAux k rest
  | 0, c :: rest =>
    if (c :: rest).take 2 = [0xC5, 0xBF] then 0x53 :: foldNameAux 1 rest
    else if (c :: rest).take 3 = [0xE2, 0x84, 0xAA] then 0x4B :: foldNameAux 2 rest
    else toUpperASCII c :: foldNameAux 0 rest

/-- Go `foldName`. -/
def foldName (name : Bytes) : Bytes := foldNameAux 0 name

/-- Whether an object key selects the struct field with JSON name `name`: Go
looks the key up by exact name and then by folded name. -/
def matchesField (key name : Bytes) : Bool := foldName key == foldName name

/-- The two kinds of error `json.Unmarshal` reports here. -/
inductive UnmarshalError where
  | invalidJSON
  | typeMismatch
  deriving DecidableEq

/-- The struct `UploadMediaResponse` (main.go 134-136); one field, JSON name
`media_id_string`. -/
structure UploadMediaResponse where
  MediaIDString : Bytes
  deriving DecidableEq

/-- Storing one object member into an `UploadMediaResponse`. The flag records a
saved `UnmarshalTypeError`; decoding goes on after one. A JSON `null` leaves a
`string` field as it is; keys matching no field are skipped. -/
def storeUploadMember (st : UploadMediaResponse × Bool) (kv : Bytes × JSON) :
    UploadMediaResponse × Bool :=
  if matchesField kv.1 (bytesOf "media_id_string") then
    match kv.2 with
    | .string v => (⟨v⟩, st.2)
    | .null => st
    | _ => (st.1, true)
  else st

/-- Go `json.Unmarshal(data, &uploadResponse)` for a zero `UploadMediaResponse`:
a syntax error for invalid JSON; `null` changes nothing; an object is stored
member by member; any other value is an `UnmarshalTypeError`. -/
def unmarshalUploadMediaResponse (data : Bytes) : Except UnmarshalError UploadMediaResponse :=
  match parseJSON data with
  | none => .error .invalidJSON
  | some .null => .ok ⟨[]⟩
  | some (.object members) =>
    let r := members.foldl storeUploadMember (⟨[]⟩, false)
    if r.2 then .error .typeMismatch else .ok r.1
  | some _ => .error .typeMismatch

/-- The part of go-github `SponsorshipEvent` that main.go reads: `Action *string`
with JSON name `action`; `none` is the nil pointer. -/
structure SponsorshipEvent where
  Action : Option Bytes
  deriving DecidableEq

/-- Storing one object member into a `SponsorshipEvent`. For `action`, a string
sets the pointer, `null` resets it to nil, anything else is a type error. The
other fields of the struct are declared in go-github, outside this repository:
`eventFields key value` says whether that library decodes the member without
error (it is true for a key that matches none of its fields). -/
def storeEventMember (eventFields : Bytes → JSON → Bool) (st : SponsorshipEvent × Bool)
    (kv : Bytes × JSON) : SponsorshipEvent × Bool :=
  if matchesField kv.1 (bytesOf "action") then
    match kv.2 with
    | .string v => (⟨some v⟩, st.2)
    | .null => (⟨none⟩, st.2)
    | _ => (st.1, true)
  else if eventFields kv.1 kv.2 then st
  else (st.1, true)

/-- Go `json.Unmarshal(bodyBytes, &sponsorShipEvent)` for a zero `SponsorshipEvent`. -/
def unmarshalSponsorshipEvent (eventFields : Bytes → JSON → Bool) (data : Bytes) :
    Except UnmarshalError SponsorshipEvent :=
  match parseJSON data with
  | none => .error .invalidJSON
  | some .null => .ok ⟨none⟩
  | some (.object members) =>
    let r := members.foldl (storeEventMember eventFields) (⟨none⟩, false)
    if r.2 then .error .typeMismatch else .ok r.1
  | some _ => .error .typeMismatch

/-! ## Configuration, outbound calls and the environment -/

/-- The struct `config` (main.go 30-36). -/
structure config where
  ClientToken : Bytes
  ClientSecret : Bytes
  AccessToken : Bytes
  AccessSecret : Bytes
  WebHookSecret : Bytes

/-- The constant `UploadMediaEndpoint`. -/
def UploadMediaEndpoint : Bytes := bytesOf "https://upload.twitter.com/1.1/media/upload.json"

/-- The constant `ManageTweetEndpoint`. -/
def ManageTweetEndpoint : Bytes := bytesOf "https://api.twitter.com/2/tweets"

/-- The OAuth1 client of `post`: `oauth1.NewConfig(ClientToken, ClientSecret)`
with `oauth1.NewToken(AccessToken, AccessSecret)`. It signs every request it sends. -/
structure OAuth1Client where
  consumerKey : Bytes
  consumerSecret : Bytes
  token : Bytes
  tokenSecret : Bytes

/-- What an outbound request carries. `formFile` is a `multipart/form-data` body
with one file part (`CreateFormFile(fieldname, filename)` then the content);
`json v` is the output of `json.Marshal` for the value `v`, sent as
`application/json`. -/
inductive Payload where
  | formFile (fieldname filename content : Bytes)
  | json (v : JSON)

/-- An outbound HTTP request handed to `httpClient.Do`. -/
structure OutboundRequest where
  client : OAuth1Client
  method : Bytes
  url : Bytes
  body : Payload

/-- What `post` looks at in an HTTP response: `Body` is the result of
`io.ReadAll(resp.Body)`, `none` when that returns an error. The status code is
part of the response but `post` never reads it. -/
structure HTTPResponse where
  StatusCode : Nat
  Body : Option Bytes

/-- Everything outside main.go that the handler depends on. `hmacSHA256 key msg`
is the HMAC-SHA256 digest; `imageBytes` is the embedded `image.png`;
`roundTrip req` is `httpClient.Do(req)`, `none` when it returns an error;
`eventFields` is described at `storeEventMember`. -/
structure Env where
  hmacSHA256 : Bytes → Bytes → Bytes
  imageBytes : Bytes
  roundTrip : OutboundRequest → Option HTTPResponse
  eventFields : Bytes → JSON → Bool

/-- How a Go function call ends: it returns a value, or the process is
terminated by `os.Exit`. -/
inductive Exec (α : Type) where
  | returned (a : α)
  | exited (code : Nat)

/-- Sequencing of Go statements: what follows runs only if the process is
still alive. -/
def Exec.andThen {α β : Type} : Exec α → (α → Exec β) → Exec β
  | .returned a, f => f a
  | .exited code, _ => .exited code

/-- Go `log.Fatal`: prints and calls `os.Exit(1)`. -/
def logFatal : Exec Unit := .exited 1

/-- A non-nil Go `error` as `post` could return it: from `httpClient.Do`, from
`io.ReadAll`, or from `extractMediaID`. -/
inductive GoError where
  | transport
  | read
  | decode (e : UnmarshalError)

/-! ## extractMediaID and post (main.go 46-145) -/

/-- The function `extractMediaID(respBody string) (string, error)`. -/
def extractMediaID (respBody : Bytes) : Except UnmarshalError Bytes :=
  match unmarshalUploadMediaResponse respBody with
  | .error e => .error e
  | .ok uploadResponse => .ok uploadResponse.MediaIDString

/-- The HTTP client built at the top of `post`. -/
def oauthClient (cfg : config) : OAuth1Client :=
  ⟨cfg.ClientToken, cfg.ClientSecret, cfg.AccessToken, cfg.AccessSecret⟩

/-- The first request of `post`: the image as form file `media`, `image.png`. -/
def uploadRequest (env : Env) (cfg : config) : OutboundRequest :=
  { client := oauthClient cfg
    method := bytesOf "POST"
    url := UploadMediaEndpoint
    body := .formFile (bytesOf "media") (bytesOf "image.png") env.imageBytes }

/-- The value marshalled into `tweetBody` (`json.Marshal` writes map keys sorted). -/
def tweetBody (mediaID : Bytes) : JSON :=
  .object
    [ (bytesOf "media", .object [(bytesOf "media_ids", .array [.string mediaID])]),
      (bytesOf "text", .string (bytesOf "ありがとうございます 🤗 #GitHubSponsors")) ]

/-- The second request of `post`. -/
def tweetRequest (cfg : config) (mediaID : Bytes) : OutboundRequest :=
  { client := oauthClient cfg
    method := bytesOf "POST"
    url := ManageTweetEndpoint
    body := .json (tweetBody mediaID) }

/-- The function `post(ctx, cfg) error`, with the list of requests it handed to
`httpClient.Do`. Every error branch is `log.Fatal(...)` followed by
`return err`. Writing into the `bytes.Buffer`, `http.NewRequest` with the
constant method and URLs, and `json.Marshal` of the string map cannot fail;
those branches are left out. The returned value is the `error`, `none` for nil. -/
def post (env : Env) (cfg : config) : List OutboundRequest × Exec (Option GoError) :=
  let req := uploadRequest env cfg
  match env.roundTrip req with
  | none => ([req], logFatal.andThen fun _ => .returned (some .transport))
  | some resp =>
    match resp.Body with
    | none => ([req], logFatal.andThen fun _ => .returned (some .read))
    | some respBody =>
      match extractMediaID respBody with
      | .error e => ([req], logFatal.andThen fun _ => .returned (some (.decode e)))
      | .ok mediaID =>
        let req2 := tweetRequest cfg mediaID
        match env.roundTrip req2 with
        | none => ([req, req2], logFatal.andThen fun _ => .returned (some .transport))
        | some resp2 =>
          match resp2.Body with
          | none => ([req, req2], logFatal.andThen fun _ => .returned (some .read))
          | some _ => ([req, req2], .returned none)

/-! ## handleWebhook (main.go 154-203) -/

/-- An inbound request as the handler sees it: the method, the
`X-Hub-Signature-256` header if there is one, and the result of
`io.ReadAll(req.Body)` (`none` when reading fails). -/
structure Request where
  Method : Bytes
  XHubSignature256 : Option Bytes
  Body : Option Bytes

/-- Go `Header.Get`: the value of the header, the empty string when it is absent. -/
def headerGet (h : Option Bytes) : Bytes := h.getD []

/-- How handling a request ends: the handler wrote a status and a body, or the
process exited before anything was written. -/
inductive Outcome where
  | response (status : Nat) (body : Bytes)
  | processExit (code : Nat)
  deriving DecidableEq

/-- A run of the handler: its outcome, the outbound requests in the order they
were issued, and whether `io.ReadAll(req.Body)` was executed. -/
structure Handled where
  outcome : Outcome
  calls : List OutboundRequest
  bodyRead : Bool

/-- Go `fmt.Fprintln(w, s)`: the text followed by a newline. -/
def fprintln (s : String) : Bytes := bytesOf s ++ [0x0A]

/-- The handler returned by `handleWebhook(cfg)`. -/
def handleWebhook (env : Env) (cfg : config) (req : Request) : Handled :=
  if req.Method ≠ bytesOf "POST" then
    ⟨.response 405 (fprintln "only POST is supported"), [], false⟩
  else
    let sig := headerGet req.XHubSignature256
    if sig = [] then
      ⟨.response 403 (fprintln "Missing X-Hub-Signature-256"), [], false⟩
    else
      match req.Body with
      | none => ⟨.response 400 (fprintln "Failed to read request body"), [], true⟩
      | some bodyBytes =>
        if !verifySignature env.hmacSHA256 bodyBytes sig cfg.WebHookSecret then
          ⟨.response 403 (fprintln "Wrong signature"), [], true⟩
        else
          match unmarshalSponsorshipEvent env.eventFields bodyBytes with
          | .error _ => ⟨.response 400 (fprintln "Failed to parse request body"), [], true⟩
          | .ok sponsorShipEvent =>
            if sponsorShipEvent.Action = some (bytesOf "created") then
              match post env cfg with
              | (calls, .exited code) => ⟨.processExit code, calls, true⟩
              | (calls, .returned (some _)) =>
                ⟨.response 400 (fprintln "Failed to send notify"), calls, true⟩
              | (calls, .returned none) => ⟨.response 200 (fprintln "OK"), calls, true⟩
            else ⟨.response 200 (fprintln "OK"), [], true⟩

/-! ## Sample environment for concrete runs -/

/-- A stand-in keyed digest for concrete runs. The theorems hold for every
digest function; this one only serves to instantiate them. -/
def sampleMAC (key message : Bytes) : Bytes :=
  (key ++ message).foldl (fun acc b => acc.map (fun a => a + b)) [0x5A, 0xA5, 0x3C, 0xC3]

/-- A sample configuration. -/
def sampleConfig : config :=
  ⟨bytesOf "ck", bytesOf "cs", bytesOf "at", bytesOf "as", bytesOf "secret"⟩

/-- A network that answers every request with the given status and body. -/
def constantNetwork (status : Nat) (body : Bytes) : OutboundRequest → Option HTTPResponse :=
  fun _ => some ⟨status, some body⟩

/-- A network on which every request fails with a transport error. -/
def downNetwork : OutboundRequest → Option HTTPResponse := fun _ => none

/-- A sample environment around a given network; every member of the other
event fields is taken to decode. -/
def sampleEnv (net : OutboundRequest → Option HTTPResponse) : Env :=
  ⟨sampleMAC, [0x89, 0x50, 0x4E, 0x47], net, fun _ _ => true⟩

/-- A correctly signed POST request with the given body, for `sampleConfig`. -/
def signedPost (body : Bytes) : Request :=
  ⟨bytesOf "POST", some (expectedMAC sampleMAC body sampleConfig.WebHookSecret), some body⟩

/-- The value of member `key` of a JSON object (its first occurrence). -/
def JSON.member (key : Bytes) : JSON → Option JSON
  | .object members => (members.find? fun kv => kv.1 == key).map fun kv => kv.2
  | _ => none

/-- The keys of a JSON object in order. -/
def JSON.keys : JSON → List Bytes
  | .object members => members.map fun kv => kv.1
  | _ => []

/-- The webhook body of a new sponsorship. -/
def createdBody : Bytes := bytesOf "\x7b\"action\":\"created\"\x7d"

/-- An upload response with a media identifier. -/
def uploadedBody : Bytes := bytesOf "\x7b\"media_id_string\":\"12345\"\x7d"

/-- The webhook body of a cancelled sponsorship. -/
def cancelledBody : Bytes := bytesOf "\x7b\"action\":\"cancelled\"\x7d"

/-- A run in which the upload fails with a transport error. -/
def uploadDownRun : Handled :=
  handleWebhook (sampleEnv downNetwork) sampleConfig (signedPost createdBody)

/-- A run in which the upload is answered with the JSON object `{}`. -/
def emptyObjectUploadRun : Handled :=
  handleWebhook (sampleEnv (constantNetwork 200 (bytesOf "\x7b\x7d"))) sampleConfig
    (signedPost createdBody)

/-- A run on a correctly signed webhook body `[]`. -/
def arrayBodyRun : Handled :=
  handleWebhook (sampleEnv downNetwork) sampleConfig (signedPost (bytesOf "[]"))

/-- A network that accepts the upload and answers every other request with
status 403 and an error document. -/
def rejectingTweets : OutboundRequest → Option HTTPResponse :=
  fun r =>
    if r.url = UploadMediaEndpoint then some ⟨200, some uploadedBody⟩
    else some ⟨403, some (bytesOf "\x7b\"title\":\"Forbidden\"\x7d")⟩

/-! ## Lemmas on bytes and on the constant-time comparison -/

theorem nat_or_eq_zero (a b : Nat) : a ||| b = 0 ↔ a = 0 ∧ b = 0 := by
  constructor
  · intro h
    constructor
    · apply Nat.eq_of_testBit_eq; intro i
      have := congrArg (fun n => n.testBit i) h
      simp [Nat.testBit_or] at this ⊢
      exact this.1
    · apply Nat.eq_of_testBit_eq; intro i
      have := congrArg (fun n => n.testBit i) h
      simp [Nat.testBit_or] at this ⊢
      exact this.2
  · rintro ⟨rfl, rfl⟩; rfl

theorem nat_xor_pow_ne (a k : Nat) : a ^^^ 2 ^ k ≠ a := by
  intro h
  have h2 : a ^^^ (a ^^^ 2 ^ k) = a ^^^ a := by rw [h]
  rw [← Nat.xor_assoc, Nat.xor_self, Nat.zero_xor] at h2
  have := Nat.pos_pow_of_pos k (show 0 < 2 by decide)
  omega

theorem byte_xor_eq_zero (a b : UInt8) : a.toNat ^^^ b.toNat = 0 ↔ a = b := by
  rw [Nat.xor_eq_zero]
  exact ⟨UInt8.ext, fun h => by rw [h]⟩

theorem byte_xor_lt (a b : UInt8) : a.toNat ^^^ b.toNat < 2 ^ 8 :=
  Nat.xor_lt_two_pow (UInt8.toNat_lt a) (UInt8.toNat_lt b)

theorem fold_or_xor_eq_zero (x : Bytes) : ∀ (y : Bytes) (v : Nat), x.length = y.length →
    ((List.zip x y).foldl (fun v p => v ||| (p.1.toNat ^^^ p.2.toNat)) v = 0
      ↔ v = 0 ∧ x = y) := by
  induction x with
  | nil =>
    intro y v h
    cases y with
    | nil => simp
    | cons b bs => simp at h
  | cons a as ih =>
    intro y v h
    cases y with
    | nil => simp at h
    | cons b bs =>
      simp only [List.length_cons, Nat.succ.injEq] at h
      simp only [List.zip_cons_cons, List.foldl_cons]
      rw [ih bs _ h, nat_or_eq_zero, byte_xor_eq_zero]
      constructor
      · rintro ⟨⟨hv, hab⟩, hrest⟩
        exact ⟨hv, by rw [hab, hrest]⟩
      · rintro ⟨hv, hl⟩
        injection hl with h1 h2
        exact ⟨⟨hv, h1⟩, h2⟩

theorem fold_or_xor_lt (l : List (UInt8 × UInt8)) : ∀ (v : Nat), v < 2 ^ 8 →
    l.foldl (fun v p => v ||| (p.1.toNat ^^^ p.2.toNat)) v < 2 ^ 8 := by
  induction l with
  | nil => intro v hv; simpa using hv
  | cons p ps ih =>
    intro v hv
    simp only [List.foldl_cons]
    exact ih _ (Nat.or_lt_two_pow hv (byte_xor_lt p.1 p.2))

theorem constantTimeByteEq_zero (n : Nat) (h : n < 2 ^ 8) :
    constantTimeByteEq n 0 = 1 ↔ n = 0 := by
  unfold constantTimeByteEq
  rw [Nat.xor_zero]
  norm_num at h
  omega

theorem constantTimeCompare_eq_one (x y : Bytes) : constantTimeCompare x y = 1 ↔ x = y := by
  unfold constantTimeCompare
  by_cases hl : x.length = y.length
  · rw [if_neg (by simpa using hl),
      constantTimeByteEq_zero _ (fold_or_xor_lt _ 0 (by decide)),
      fold_or_xor_eq_zero x y 0 hl]
    simp
  · rw [if_pos hl]
    constructor
    · intro h; exact absurd h (by decide)
    · intro h; exact absurd (by rw [h]) hl

theorem hmacEqual_iff (x y : Bytes) : hmacEqual x y = true ↔ x = y := by
  unfold hmacEqual
  rw [beq_iff_eq, constantTimeCompare_eq_one]

theorem verifySignature_eq_true (hmacSHA256 : Bytes → Bytes → Bytes) (B H S : Bytes) :
    verifySignature hmacSHA256 B H S = true ↔ H = expectedMAC hmacSHA256 B S := by
  unfold verifySignature
  exact hmacEqual_iff _ _

theorem hextable_lowerHexDigit : ∀ n, n < 16 → hextable.getD n 0 = lowerHexDigit n := by
  decide

theorem hexEncodeToString_eq_lowerHex (src : Bytes) : hexEncodeToString src = lowerHex src := by
  unfold hexEncodeToString lowerHex
  congr 1
  funext v
  have h1 : v.toNat / 16 < 16 := by
    have := UInt8.toNat_lt v
    norm_num at this
    omega
  have h2 : v.toNat % 16 < 16 := Nat.mod_lt _ (by decide)
  rw [hextable_lowerHexDigit _ h1, hextable_lowerHexDigit _ h2]

theorem flipBit_ne (H : Bytes) : ∀ (i k : Nat), i < H.length → k < 8 → flipBit H i k ≠ H := by
  induction H with
  | nil => intro i k hi; simp at hi
  | cons b bs ih =>
    intro i k hi hk
    cases i with
    | zero =>
      intro h
      simp only [flipBit] at h
      injection h with h1 _
      have hlt : b.toNat ^^^ 2 ^ k < 256 := by
        have := Nat.xor_lt_two_pow (UInt8.toNat_lt b)
          (Nat.pow_lt_pow_right (show 1 < 2 by decide) hk)
        simpa using this
      have h2 := congrArg UInt8.toNat h1
      rw [UInt8.toNat_ofNat_of_lt hlt] at h2
      exact nat_xor_pow_ne _ _ h2
    | succ j =>
      intro h
      simp only [flipBit] at h
      injection h with _ h2
      exact ih j k (by simpa using hi) hk h2

/-! ## The parser has enough fuel -/

theorem skipSpace_length_le (s : Bytes) : (skipSpace s).length ≤ s.length := by
  induction s with
  | nil => simp [skipSpace]
  | cons c cs ih =>
    unfold skipSpace
    split
    · exact Nat.le_succ_of_le ih
    · exact Nat.le_refl _

theorem skipDigits_length_le (s : Bytes) : (skipDigits s).length ≤ s.length := by
  induction s with
  | nil => simp [skipDigits]
  | cons c cs ih =>
    unfold skipDigits
    split
    · exact Nat.le_succ_of_le ih
    · exact Nat.le_refl _

theorem scanString_length (s : Bytes) : ∀ raw rest, scanString s = some (raw, rest) →
    rest.length < s.length := by
  induction s using scanString.induct <;> intro raw0 rest0 h <;> unfold scanString at h <;>
    simp_all <;> (try omega)


theorem digits_tail_length (d : UInt8) (ds rest : Bytes)
    (h : (if isDigit d = true then some (skipDigits ds) else none) = some rest) :
    rest.length ≤ ds.length := by
  split at h
  · injection h with h
    rw [← h]
    exact skipDigits_length_le ds
  · exact absurd h (by simp)

theorem scanExponent_length (s rest : Bytes) (h : scanExponent s = some rest) :
    rest.length < s.length + 1 := by
  unfold scanExponent at h
  cases s with
  | nil => simp at h
  | cons c cs =>
    by_cases hc : (c == 0x2B || c == 0x2D) = true
    · simp only [hc, if_true] at h
      cases cs with
      | nil => simp at h
      | cons d ds =>
        have := digits_tail_length d ds rest h
        simp only [List.length_cons]
        omega
    · simp only [hc] at h
      have := digits_tail_length c cs rest h
      simp only [List.length_cons]
      omega

theorem scanAfterFraction_length (s rest : Bytes) (h : scanAfterFraction s = some rest) :
    rest.length ≤ s.length := by
  unfold scanAfterFraction at h
  cases s with
  | nil =>
    injection h with h
    rw [← h]
  | cons c cs =>
    simp only at h
    split at h
    · have := scanExponent_length cs rest h
      simp only [List.length_cons]
      omega
    · injection h with h
      rw [← h]

theorem scanAfterInteger_length (s rest : Bytes) (h : scanAfterInteger s = some rest) :
    rest.length ≤ s.length := by
  unfold scanAfterInteger at h
  cases s with
  | nil =>
    injection h with h
    rw [← h]
  | cons c cs =>
    simp only at h
    split at h
    · cases cs with
      | nil => simp at h
      | cons d ds =>
        simp only at h
        split at h
        · have h1 := scanAfterFraction_length _ rest h
          have h2 := skipDigits_length_le ds
          simp only [List.length_cons]
          omega
        · exact absurd h (by simp)
    · exact scanAfterFraction_length _ rest h

theorem scanNumber_length (s rest : Bytes) (h : scanNumber s = some rest) :
    rest.length < s.length := by
  unfold scanNumber at h
  have key : ∀ (d : UInt8) (ds : Bytes),
      (if (d == 0x30) = true then scanAfterInteger ds
        else if (0x31 ≤ d && d ≤ 0x39) = true then scanAfterInteger (skipDigits ds)
        else none) = some rest → rest.length ≤ ds.length := by
    intro d ds h
    split at h
    · exact scanAfterInteger_length ds rest h
    · split at h
      · have h1 := scanAfterInteger_length _ rest h
        have h2 := skipDigits_length_le ds
        omega
      · exact absurd h (by simp)
  cases s with
  | nil => simp at h
  | cons c cs =>
    by_cases hc : (c == 0x2D) = true
    · simp only [hc, if_true] at h
      cases cs with
      | nil => simp at h
      | cons d ds =>
        have := key d ds h
        simp only [List.length_cons]
        omega
    · simp only [hc] at h
      have := key c cs h
      simp only [List.length_cons]
      omega

theorem parse_progress (fuel : Nat) :
    (∀ depth s v rest, parseValue fuel depth s = .ok v rest → rest.length < s.length) ∧
    (∀ depth s acc v rest, parseMembers fuel depth s acc = .ok v rest →
      rest.length < s.length) ∧
    (∀ depth s acc v rest, parseElements fuel depth s acc = .ok v rest →
      rest.length < s.length) := by
  induction fuel with
  | zero =>
    refine ⟨?_, ?_, ?_⟩
    · intro depth s v rest h; simp [parseValue] at h
    · intro depth s acc v rest h; simp [parseMembers] at h
    · intro depth s acc v rest h; simp [parseElements] at h
  | succ fuel ih =>
    obtain ⟨ihV, ihM, ihE⟩ := ih
    refine ⟨?_, ?_, ?_⟩
    · intro depth s v rest h
      cases s with
      | nil => simp [parseValue] at h
      | cons c cs =>
        have hsp := skipSpace_length_le cs
        simp only [parseValue] at h
        split at h
        · split at h
          · exact absurd h (by simp)
          · split at h
            · exact absurd h (by simp)
            · rename_i d ds heq
              rw [heq] at hsp
              simp only [List.length_cons] at hsp ⊢
              split at h
              · injection h with _ h
                rw [← h]; omega
              · have := ihM _ _ _ _ _ h
                simp only [List.length_cons] at this
                omega
        · split at h
          · split at h
            · exact absurd h (by simp)
            · split at h
              · exact absurd h (by simp)
              · rename_i d ds heq
                rw [heq] at hsp
                simp only [List.length_cons] at hsp ⊢
                split at h
                · injection h with _ h
                  rw [← h]; omega
                · have := ihE _ _ _ _ _ h
                  simp only [List.length_cons] at this
                  omega
          · split at h
            · split at h
              · rename_i raw rest1 heq
                injection h with _ h
                have := scanString_length cs raw rest1 heq
                rw [← h]
                simp only [List.length_cons]
                omega
              · exact absurd h (by simp)
            · split at h
              · split at h
                · injection h with _ h
                  rw [← h]
                  simp only [List.length_cons, List.length_drop]
                  omega
                · exact absurd h (by simp)
              · split at h
                · split at h
                  · injection h with _ h
                    rw [← h]
                    simp only [List.length_cons, List.length_drop]
                    omega
                  · exact absurd h (by simp)
                · split at h
                  · split at h
                    · injection h with _ h
                      rw [← h]
                      simp only [List.length_cons, List.length_drop]
                      omega
                    · exact absurd h (by simp)
                  · split at h
                    · rename_i rest1 heq
                      injection h with _ h
                      rw [← h]
                      exact scanNumber_length _ _ heq
                    · exact absurd h (by simp)
    · intro depth s acc v rest h
      cases s with
      | nil => simp [parseMembers] at h
      | cons q cs =>
        simp only [parseMembers] at h
        split at h
        · split at h
          · exact absurd h (by simp)
          · rename_i rawKey rest1 heq1
            have h1 := scanString_length cs rawKey rest1 heq1
            have hsp1 := skipSpace_length_le rest1
            split at h
            · exact absurd h (by simp)
            · rename_i colon rest2 heq2
              rw [heq2] at hsp1
              have hsp2 := skipSpace_length_le rest2
              split at h
              · split at h
                · rename_i v1 rest3 heq3
                  have h3 := ihV _ _ _ _ heq3
                  have hsp3 := skipSpace_length_le rest3
                  split at h
                  · exact absurd h (by simp)
                  · rename_i d rest4 heq4
                    rw [heq4] at hsp3
                    have hsp4 := skipSpace_length_le rest4
                    simp only [List.length_cons] at hsp1 hsp3 ⊢
                    split at h
                    · have := ihM _ _ _ _ _ h
                      omega
                    · split at h
                      · injection h with _ h
                        rw [← h]; omega
                      · exact absurd h (by simp)
                · exact absurd h (by simp)
                · exact absurd h (by simp)
              · exact absurd h (by simp)
        · exact absurd h (by simp)
    · intro depth s acc v rest h
      simp only [parseElements] at h
      split at h
      · rename_i v1 rest1 heq1
        have h1 := ihV _ _ _ _ heq1
        have hsp1 := skipSpace_length_le rest1
        split at h
        · exact absurd h (by simp)
        · rename_i d rest2 heq2
          rw [heq2] at hsp1
          have hsp2 := skipSpace_length_le rest2
          simp only [List.length_cons] at hsp1
          split at h
          · have := ihE _ _ _ _ _ h
            omega
          · split at h
            · injection h with _ h
              rw [← h]; omega
            · exact absurd h (by simp)
      · exact absurd h (by simp)
      · exact absurd h (by simp)

theorem parse_fuel (fuel : Nat) :
    (∀ depth s, 2 * s.length < fuel → parseValue fuel depth s ≠ .outOfFuel) ∧
    (∀ depth s acc, 2 * s.length + 1 < fuel → parseMembers fuel depth s acc ≠ .outOfFuel) ∧
    (∀ depth s acc, 2 * s.length + 1 < fuel → parseElements fuel depth s acc ≠ .outOfFuel) := by
  induction fuel with
  | zero =>
    refine ⟨?_, ?_, ?_⟩
    · intro depth s hl; omega
    · intro depth s acc hl; omega
    · intro depth s acc hl; omega
  | succ fuel ih =>
    obtain ⟨ihV, ihM, ihE⟩ := ih
    refine ⟨?_, ?_, ?_⟩
    · intro depth s hl h
      cases s with
      | nil => simp [parseValue] at h
      | cons c cs =>
        have hsp := skipSpace_length_le cs
        simp only [List.length_cons] at hl
        simp only [parseValue] at h
        split at h
        · split at h
          · exact absurd h (by simp)
          · split at h
            · exact absurd h (by simp)
            · rename_i d ds heq
              rw [heq] at hsp
              split at h
              · exact absurd h (by simp)
              · refine ihM _ _ _ ?_ h
                simp only [List.length_cons] at hsp ⊢
                omega
        · split at h
          · split at h
            · exact absurd h (by simp)
            · split at h
              · exact absurd h (by simp)
              · rename_i d ds heq
                rw [heq] at hsp
                split at h
                · exact absurd h (by simp)
                · refine ihE _ _ _ ?_ h
                  simp only [List.length_cons] at hsp ⊢
                  omega
          · repeat' split at h
            all_goals exact absurd h (by simp)
    · intro depth s acc hl h
      cases s with
      | nil => simp [parseMembers] at h
      | cons q cs =>
        simp only [List.length_cons] at hl
        simp only [parseMembers] at h
        split at h
        · split at h
          · exact absurd h (by simp)
          · rename_i rawKey rest1 heq1
            have h1 := scanString_length cs rawKey rest1 heq1
            have hsp1 := skipSpace_length_le rest1
            split at h
            · exact absurd h (by simp)
            · rename_i colon rest2 heq2
              rw [heq2] at hsp1
              have hsp2 := skipSpace_length_le rest2
              simp only [List.length_cons] at hsp1
              split at h
              · split at h
                · rename_i v1 rest3 heq3
                  have h3 := (parse_progress fuel).1 _ _ _ _ heq3
                  have hsp3 := skipSpace_length_le rest3
                  split at h
                  · exact absurd h (by simp)
                  · rename_i d rest4 heq4
                    rw [heq4] at hsp3
                    have hsp4 := skipSpace_length_le rest4
                    simp only [List.length_cons] at hsp3
                    split at h
                    · refine ihM _ _ _ ?_ h
                      omega
                    · split at h
                      · exact absurd h (by simp)
                      · exact absurd h (by simp)
                · exact absurd h (by simp)
                · rename_i heq3
                  refine ihV _ _ ?_ heq3
                  omega
              · exact absurd h (by simp)
        · exact absurd h (by simp)
    · intro depth s acc hl h
      simp only [parseElements] at h
      split at h
      · rename_i v1 rest1 heq1
        have h1 := (parse_progress fuel).1 _ _ _ _ heq1
        have hsp1 := skipSpace_length_le rest1
        split at h
        · exact absurd h (by simp)
        · rename_i d rest2 heq2
          rw [heq2] at hsp1
          have hsp2 := skipSpace_length_le rest2
          simp only [List.length_cons] at hsp1
          split at h
          · refine ihE _ _ _ ?_ h
            omega
          · split at h
            · exact absurd h (by simp)
            · exact absurd h (by simp)
      · exact absurd h (by simp)
      · rename_i heq1
        refine ihV _ _ ?_ heq1
        omega

/-- The fuel that `parseJSON` hands to `parseValue` never runs out: a `none`
from `parseJSON` is always a syntax error. -/
theorem parseValue_fuel (data : Bytes) (depth : Nat) :
    parseValue (2 * data.length + 1) depth (skipSpace data) ≠ .outOfFuel := by
  apply (parse_fuel _).1
  have := skipSpace_length_le data
  omega

/-! ## The handler after successful verification -/

theorem expectedMAC_ne_nil (hmacSHA256 : Bytes → Bytes → Bytes) (B S : Bytes) :
    expectedMAC hmacSHA256 B S ≠ [] := by
  unfold expectedMAC
  intro h
  have h1 := (List.append_eq_nil.mp h).1
  exact absurd h1 (by decide)

theorem handleWebhook_decoded (env : Env) (cfg : config) (req : Request) (B sig : Bytes)
    (ev : SponsorshipEvent)
    (hm : req.Method = bytesOf "POST") (hs : req.XHubSignature256 = some sig)
    (hb : req.Body = some B)
    (hv : verifySignature env.hmacSHA256 B sig cfg.WebHookSecret = true)
    (hd : unmarshalSponsorshipEvent env.eventFields B = .ok ev) :
    handleWebhook env cfg req =
      if ev.Action = some (bytesOf "created") then
        match post env cfg with
        | (calls, .exited code) => ⟨.processExit code, calls, true⟩
        | (calls, .returned (some _)) =>
          ⟨.response 400 (fprintln "Failed to send notify"), calls, true⟩
        | (calls, .returned none) => ⟨.response 200 (fprintln "OK"), calls, true⟩
      else ⟨.response 200 (fprintln "OK"), [], true⟩ := by
  have hsig : sig ≠ [] := by
    rw [(verifySignature_eq_true _ _ _ _).mp hv]
    exact expectedMAC_ne_nil _ _ _
  unfold handleWebhook
  simp [hm, hs, hb, hv, hd, headerGet, hsig]

theorem handleWebhook_undecodable (env : Env) (cfg : config) (req : Request) (B sig : Bytes)
    (e : UnmarshalError)
    (hm : req.Method = bytesOf "POST") (hs : req.XHubSignature256 = some sig)
    (hb : req.Body = some B)
    (hv : verifySignature env.hmacSHA256 B sig cfg.WebHookSecret = true)
    (hd : unmarshalSponsorshipEvent env.eventFields B = .error e) :
    handleWebhook env cfg req =
      ⟨.response 400 (fprintln "Failed to parse request body"), [], true⟩ := by
  have hsig : sig ≠ [] := by
    rw [(verifySignature_eq_true _ _ _ _).mp hv]
    exact expectedMAC_ne_nil _ _ _
  unfold handleWebhook
  simp [hm, hs, hb, hv, hd, headerGet, hsig]

theorem post_upload_decoded (env : Env) (cfg : config) (resp : HTTPResponse)
    (respBody m : Bytes)
    (hu : env.roundTrip (uploadRequest env cfg) = some resp) (hr : resp.Body = some respBody)
    (hx : extractMediaID respBody = .ok m) :
    post env cfg =
      match env.roundTrip (tweetRequest cfg m) with
      | none => ([uploadRequest env cfg, tweetRequest cfg m], .exited 1)
      | some resp2 =>
        match resp2.Body with
        | none => ([uploadRequest env cfg, tweetRequest cfg m], .exited 1)
        | some _ => ([uploadRequest env cfg, tweetRequest cfg m], .returned none) := by
  unfold post
  simp only [hu, hr, hx, logFatal, Exec.andThen]

theorem post_calls_of_upload_decoded (env : Env) (cfg : config) (resp : HTTPResponse)
    (respBody m : Bytes)
    (hu : env.roundTrip (uploadRequest env cfg) = some resp) (hr : resp.Body = some respBody)
    (hx : extractMediaID respBody = .ok m) :
    (post env cfg).1 = [uploadRequest env cfg, tweetRequest cfg m] := by
  rw [post_upload_decoded env cfg resp respBody m hu hr hx]
  cases env.roundTrip (tweetRequest cfg m) with
  | none => rfl
  | some resp2 =>
    cases h : resp2.Body with
    | none => simp [h]
    | some b => simp [h]

theorem post_upload_failed (env : Env) (cfg : config)
    (hf : env.roundTrip (uploadRequest env cfg) = none ∨
      (∃ resp, env.roundTrip (uploadRequest env cfg) = some resp ∧ resp.Body = none) ∨
      (∃ resp respBody e, env.roundTrip (uploadRequest env cfg) = some resp ∧
        resp.Body = some respBody ∧ extractMediaID respBody = .error e)) :
    post env cfg = ([uploadRequest env cfg], .exited 1) := by
  unfold post
  rcases hf with h | ⟨resp, h1, h2⟩ | ⟨resp, respBody, e, h1, h2, h3⟩
  · simp [h, logFatal, Exec.andThen]
  · simp [h1, h2, logFatal, Exec.andThen]
  · simp [h1, h2, h3, logFatal, Exec.andThen]

/-- The calls of a handler run are those of `post` when it ran. -/
theorem handleWebhook_created (env : Env) (cfg : config) (req : Request) (B sig : Bytes)
    (ev : SponsorshipEvent)
    (hm : req.Method = bytesOf "POST") (hs : req.XHubSignature256 = some sig)
    (hb : req.Body = some B)
    (hv : verifySignature env.hmacSHA256 B sig cfg.WebHookSecret = true)
    (hd : unmarshalSponsorshipEvent env.eventFields B = .ok ev)
    (ha : ev.Action = some (bytesOf "created")) :
    (handleWebhook env cfg req).calls = (post env cfg).1 ∧
    (handleWebhook env cfg req).outcome =
      (match (post env cfg).2 with
        | .exited code => .processExit code
        | .returned (some _) => .response 400 (fprintln "Failed to send notify")
        | .returned none => .response 200 (fprintln "OK")) := by
  rw [handleWebhook_decoded env cfg req B sig ev hm hs hb hv hd, if_pos ha]
  rcases hp : post env cfg with ⟨calls, r⟩
  cases r with
  | exited code => simp
  | returned a =>
    cases a with
    | none => simp
    | some e => simp

theorem post_calls_ne_nil (env : Env) (cfg : config) : (post env cfg).1 ≠ [] := by
  unfold post
  cases h1 : env.roundTrip (uploadRequest env cfg) with
  | none => simp [h1]
  | some resp =>
    cases h2 : resp.Body with
    | none => simp [h1, h2]
    | some respBody =>
      cases h3 : extractMediaID respBody with
      | error e => simp [h1, h2, h3]
      | ok m =>
        cases h4 : env.roundTrip (tweetRequest cfg m) with
        | none => simp [h1, h2, h3, h4]
        | some r2 => cases h5 : r2.Body <;> simp [h1, h2, h3, h4, h5]

/-- The function `post` never returns a non-nil error: each of its error
branches ends the process first. The handler's 400 answer `Failed to send
notify` is therefore never written. -/
theorem post_never_returns_error (env : Env) (cfg : config) (e : GoError) :
    (post env cfg).2 ≠ .returned (some e) := by
  unfold post
  cases h1 : env.roundTrip (uploadRequest env cfg) with
  | none => simp [h1, logFatal, Exec.andThen]
  | some resp =>
    cases h2 : resp.Body with
    | none => simp [h1, h2, logFatal, Exec.andThen]
    | some respBody =>
      cases h3 : extractMediaID respBody with
      | error e => simp [h1, h2, h3, logFatal, Exec.andThen]
      | ok m =>
        cases h4 : env.roundTrip (tweetRequest cfg m) with
        | none => simp [h1, h2, h3, h4, logFatal, Exec.andThen]
        | some r2 => cases h5 : r2.Body <;> simp [h1, h2, h3, h4, h5, logFatal, Exec.andThen]

/-! ## Claims -/

/-- C1: `verifySignature(B, H, S)` is true exactly when `H` is `sha256=` followed
by the lowercase hexadecimal encoding of the HMAC-SHA256 digest of `B` under key
`S`; hence it is true for the expected header, false for the empty header, and
false for the expected header with any single bit inverted. -/
theorem verifySignature_contract (hmacSHA256 : Bytes → Bytes → Bytes) (B H S : Bytes) :
    (verifySignature hmacSHA256 B H S = true ↔
      H = bytesOf "sha256=" ++ lowerHex (hmacSHA256 S B)) ∧
    verifySignature hmacSHA256 B (expectedMAC hmacSHA256 B S) S = true ∧
    verifySignature hmacSHA256 B [] S = false ∧
    ∀ i k : Nat, i < (expectedMAC hmacSHA256 B S).length → k < 8 →
      verifySignature hmacSHA256 B (flipBit (expectedMAC hmacSHA256 B S) i k) S = false := by
  refine ⟨?_, ?_, ?_, ?_⟩
  · rw [verifySignature_eq_true, expectedMAC, hexEncodeToString_eq_lowerHex]
  · exact (verifySignature_eq_true _ _ _ _).mpr rfl
  · rw [Bool.eq_false_iff]
    intro h
    exact expectedMAC_ne_nil _ _ _ ((verifySignature_eq_true _ _ _ _).mp h).symm
  · intro i k hi hk
    rw [Bool.eq_false_iff]
    intro h
    exact flipBit_ne _ i k hi hk ((verifySignature_eq_true _ _ _ _).mp h)

/-- Witness for C1: the expected header of a sample message with bit 0 of byte 8
inverted is rejected. -/
theorem verifySignature_contract_witness :
    8 < (expectedMAC sampleMAC (bytesOf "\x7b\x7d") (bytesOf "secret")).length ∧ 0 < 8 ∧
    verifySignature sampleMAC (bytesOf "\x7b\x7d")
      (flipBit (expectedMAC sampleMAC (bytesOf "\x7b\x7d") (bytesOf "secret")) 8 0)
      (bytesOf "secret") = false :=
  ⟨by decide, by decide,
    (verifySignature_contract sampleMAC (bytesOf "\x7b\x7d") [] (bytesOf "secret")).2.2.2 8 0
      (by decide) (by decide)⟩

theorem endpoints_differ : UploadMediaEndpoint ≠ ManageTweetEndpoint := by decide

/-- C2: for a POST request whose signature verifies and whose body decodes to an
event with action `created`, and an upload response from which the media
identifier `m` is read, the outbound calls are exactly one POST to the upload
endpoint followed by exactly one POST to the post-creation endpoint, whose body
is the JSON object with `text` the fixed message and `media.media_ids` the list `[m]`. -/
theorem created_event_call_trace (env : Env) (cfg : config) (req : Request) (B sig : Bytes)
    (ev : SponsorshipEvent) (resp : HTTPResponse) (respBody m : Bytes)
    (hm : req.Method = bytesOf "POST") (hs : req.XHubSignature256 = some sig)
    (hb : req.Body = some B)
    (hv : verifySignature env.hmacSHA256 B sig cfg.WebHookSecret = true)
    (hd : unmarshalSponsorshipEvent env.eventFields B = .ok ev)
    (ha : ev.Action = some (bytesOf "created"))
    (hu : env.roundTrip (uploadRequest env cfg) = some resp) (hr : resp.Body = some respBody)
    (hx : extractMediaID respBody = .ok m) :
    (handleWebhook env cfg req).calls = [uploadRequest env cfg, tweetRequest cfg m] ∧
    (uploadRequest env cfg).method = bytesOf "POST" ∧
    (uploadRequest env cfg).url = UploadMediaEndpoint ∧
    (tweetRequest cfg m).method = bytesOf "POST" ∧
    (tweetRequest cfg m).url = ManageTweetEndpoint ∧
    UploadMediaEndpoint ≠ ManageTweetEndpoint ∧
    ∃ v : JSON, (tweetRequest cfg m).body = .json v ∧
      v.keys = [bytesOf "media", bytesOf "text"] ∧
      v.member (bytesOf "text") =
        some (.string (bytesOf "ありがとうございます 🤗 #GitHubSponsors")) ∧
      (v.member (bytesOf "media")).bind (JSON.member (bytesOf "media_ids")) =
        some (.array [.string m]) := by
  refine ⟨?_, rfl, rfl, rfl, rfl, endpoints_differ, tweetBody m, rfl, rfl, rfl, rfl⟩
  rw [(handleWebhook_created env cfg req B sig ev hm hs hb hv hd ha).1]
  exact post_calls_of_upload_decoded env cfg resp respBody m hu hr hx

/-- Witness for C2: the scenario with upload response `{"media_id_string":"12345"}`. -/
theorem created_event_call_trace_witness :
    (handleWebhook (sampleEnv (constantNetwork 200 uploadedBody)) sampleConfig
        (signedPost createdBody)).calls =
      [uploadRequest (sampleEnv (constantNetwork 200 uploadedBody)) sampleConfig,
       tweetRequest sampleConfig (bytesOf "12345")] :=
  (created_event_call_trace (sampleEnv (constantNetwork 200 uploadedBody)) sampleConfig
    (signedPost createdBody) createdBody
    (expectedMAC sampleMAC createdBody sampleConfig.WebHookSecret)
    ⟨some (bytesOf "created")⟩ ⟨200, some uploadedBody⟩ uploadedBody (bytesOf "12345")
    rfl rfl rfl rfl rfl rfl rfl rfl rfl).1

/-! ### Upload failure -/

theorem upload_failure_exits (env : Env) (cfg : config) (req : Request) (B sig : Bytes)
    (ev : SponsorshipEvent)
    (hm : req.Method = bytesOf "POST") (hs : req.XHubSignature256 = some sig)
    (hb : req.Body = some B)
    (hv : verifySignature env.hmacSHA256 B sig cfg.WebHookSecret = true)
    (hd : unmarshalSponsorshipEvent env.eventFields B = .ok ev)
    (ha : ev.Action = some (bytesOf "created"))
    (hf : env.roundTrip (uploadRequest env cfg) = none ∨
      (∃ resp, env.roundTrip (uploadRequest env cfg) = some resp ∧ resp.Body = none) ∨
      (∃ resp respBody e, env.roundTrip (uploadRequest env cfg) = some resp ∧
        resp.Body = some respBody ∧ extractMediaID respBody = .error e)) :
    handleWebhook env cfg req = ⟨.processExit 1, [uploadRequest env cfg], true⟩ := by
  rw [handleWebhook_decoded env cfg req B sig ev hm hs hb hv hd, if_pos ha,
    post_upload_failed env cfg hf]

/-- C3 (evaluation of the code): with a verifying signature and action `created`,
when the upload fails with a transport error no post-creation call is issued,
but `log.Fatal` ends the process with exit status 1 and no 400 response is written. -/
theorem upload_failure_run :
    uploadDownRun.calls = [uploadRequest (sampleEnv downNetwork) sampleConfig] ∧
    uploadDownRun.outcome = .processExit 1 ∧
    uploadDownRun.outcome ≠ .response 400 (fprintln "Failed to send notify") :=
  ⟨rfl, rfl, by decide⟩

/-! ### Upload response without a media identifier -/

theorem foldl_storeUploadMember_skip (members : List (Bytes × JSON))
    (st : UploadMediaResponse × Bool)
    (h : ∀ kv ∈ members, matchesField kv.1 (bytesOf "media_id_string") = false) :
    members.foldl storeUploadMember st = st := by
  induction members generalizing st with
  | nil => rfl
  | cons kv rest ih =>
    have h1 := h kv (List.mem_cons_self _ _)
    rw [List.foldl_cons]
    have : storeUploadMember st kv = st := by
      unfold storeUploadMember
      simp [h1]
    rw [this]
    exact ih st (fun x hx => h x (List.mem_cons_of_mem _ hx))

theorem extractMediaID_missing (respBody : Bytes) (members : List (Bytes × JSON))
    (hp : parseJSON respBody = some (.object members))
    (h : ∀ kv ∈ members, matchesField kv.1 (bytesOf "media_id_string") = false) :
    extractMediaID respBody = .ok [] := by
  unfold extractMediaID unmarshalUploadMediaResponse
  simp [hp, foldl_storeUploadMember_skip members _ h]

/-- A response object carrying exactly one member that matches
`media_id_string`, with a string value `m`, yields `m`. -/
theorem extractMediaID_of_member (respBody : Bytes) (front back : List (Bytes × JSON))
    (k m : Bytes)
    (hp : parseJSON respBody = some (.object (front ++ (k, .string m) :: back)))
    (hk : matchesField k (bytesOf "media_id_string") = true)
    (hf : ∀ kv ∈ front, matchesField kv.1 (bytesOf "media_id_string") = false)
    (hb : ∀ kv ∈ back, matchesField kv.1 (bytesOf "media_id_string") = false) :
    extractMediaID respBody = .ok m := by
  have hstep : storeUploadMember (⟨[]⟩, false) (k, .string m) = (⟨m⟩, false) := by
    unfold storeUploadMember
    simp [hk]
  unfold extractMediaID unmarshalUploadMediaResponse
  simp only [hp, List.foldl_append, List.foldl_cons]
  rw [foldl_storeUploadMember_skip front _ hf, hstep, foldl_storeUploadMember_skip back _ hb]
  simp

/-- C4 (counterexample): when the upload is answered with `{}`, `extractMediaID`
returns the empty string without error, the post-creation call is issued, and
the webhook is answered 200. -/
theorem missing_media_id_counterexample :
    extractMediaID (bytesOf "\x7b\x7d") = .ok [] ∧
    emptyObjectUploadRun.calls =
      [uploadRequest (sampleEnv (constantNetwork 200 (bytesOf "\x7b\x7d"))) sampleConfig,
       tweetRequest sampleConfig []] ∧
    (tweetRequest sampleConfig []).url = ManageTweetEndpoint ∧
    emptyObjectUploadRun.outcome = .response 200 (fprintln "OK") :=
  ⟨rfl, rfl, rfl, rfl⟩

/-- C4 (amended): for a POST request with a verifying signature and action
`created`, when the upload response is a JSON object with no member matching
`media_id_string`, `extractMediaID` returns the empty string without error, the
post-creation call is issued with `media_ids` equal to the list holding the
empty string, and the webhook is answered 200 once that call completes. -/
theorem missing_media_id_still_posts (env : Env) (cfg : config) (req : Request)
    (B sig : Bytes) (ev : SponsorshipEvent) (resp : HTTPResponse) (respBody : Bytes)
    (members : List (Bytes × JSON))
    (hm : req.Method = bytesOf "POST") (hs : req.XHubSignature256 = some sig)
    (hb : req.Body = some B)
    (hv : verifySignature env.hmacSHA256 B sig cfg.WebHookSecret = true)
    (hd : unmarshalSponsorshipEvent env.eventFields B = .ok ev)
    (ha : ev.Action = some (bytesOf "created"))
    (hu : env.roundTrip (uploadRequest env cfg) = some resp) (hr : resp.Body = some respBody)
    (hp : parseJSON respBody = some (.object members))
    (hk : ∀ kv ∈ members, matchesField kv.1 (bytesOf "media_id_string") = false) :
    extractMediaID respBody = .ok [] ∧
    (handleWebhook env cfg req).calls = [uploadRequest env cfg, tweetRequest cfg []] ∧
    ((tweetRequest cfg []).body = .json (tweetBody []) ∧
      ((tweetBody []).member (bytesOf "media")).bind (JSON.member (bytesOf "media_ids")) =
        some (.array [.string []])) ∧
    ∀ (resp2 : HTTPResponse) (b2 : Bytes),
      env.roundTrip (tweetRequest cfg []) = some resp2 → resp2.Body = some b2 →
      (handleWebhook env cfg req).outcome = .response 200 (fprintln "OK") := by
  have hx := extractMediaID_missing respBody members hp hk
  have hc := handleWebhook_created env cfg req B sig ev hm hs hb hv hd ha
  refine ⟨hx, ?_, ⟨rfl, rfl⟩, ?_⟩
  · rw [hc.1]
    exact post_calls_of_upload_decoded env cfg resp respBody [] hu hr hx
  · intro resp2 b2 ht hr2
    rw [hc.2, post_upload_decoded env cfg resp respBody [] hu hr hx]
    simp [ht, hr2]

/-- Witness for C4 (amended): the upload response `{"errors":[]}`. -/
theorem missing_media_id_still_posts_witness :
    (handleWebhook (sampleEnv (constantNetwork 200 (bytesOf "\x7b\"errors\":[]\x7d"))) sampleConfig
        (signedPost createdBody)).calls =
      [uploadRequest (sampleEnv (constantNetwork 200 (bytesOf "\x7b\"errors\":[]\x7d")))
        sampleConfig, tweetRequest sampleConfig []] :=
  (missing_media_id_still_posts (sampleEnv (constantNetwork 200 (bytesOf "\x7b\"errors\":[]\x7d")))
    sampleConfig (signedPost createdBody) createdBody
    (expectedMAC sampleMAC createdBody sampleConfig.WebHookSecret)
    ⟨some (bytesOf "created")⟩ ⟨200, some (bytesOf "\x7b\"errors\":[]\x7d")⟩
    (bytesOf "\x7b\"errors\":[]\x7d") [(bytesOf "errors", .array [])]
    rfl rfl rfl rfl rfl rfl rfl rfl rfl (by decide)).2.1

/-! ### Rejections before decoding -/

/-- C5: a POST request with a non-empty signature header for which
`verifySignature` is false is answered 403 with no outbound call, whatever the
body bytes are; nothing is decoded or published. -/
theorem bad_signature_forbidden (env : Env) (cfg : config) (req : Request) (B sig : Bytes)
    (hm : req.Method = bytesOf "POST") (hs : req.XHubSignature256 = some sig)
    (hne : sig ≠ []) (hb : req.Body = some B)
    (hv : verifySignature env.hmacSHA256 B sig cfg.WebHookSecret = false) :
    handleWebhook env cfg req = ⟨.response 403 (fprintln "Wrong signature"), [], true⟩ := by
  unfold handleWebhook
  simp [hm, hs, hb, hv, headerGet, hne]

/-- Witness for C5: a body with action `created` under a wrong signature. -/
theorem bad_signature_forbidden_witness :
    handleWebhook (sampleEnv (constantNetwork 200 uploadedBody)) sampleConfig
        ⟨bytesOf "POST", some (bytesOf "sha256=00"), some createdBody⟩ =
      ⟨.response 403 (fprintln "Wrong signature"), [], true⟩ :=
  bad_signature_forbidden (sampleEnv (constantNetwork 200 uploadedBody)) sampleConfig
    ⟨bytesOf "POST", some (bytesOf "sha256=00"), some createdBody⟩ createdBody
    (bytesOf "sha256=00") rfl rfl (by decide) rfl rfl

/-- C8: a request whose method is not `POST` is answered 405 with no outbound
call, whatever its header and body are. -/
theorem wrong_method_not_allowed (env : Env) (cfg : config) (req : Request)
    (hm : req.Method ≠ bytesOf "POST") :
    handleWebhook env cfg req =
      ⟨.response 405 (fprintln "only POST is supported"), [], false⟩ := by
  unfold handleWebhook
  simp [hm]

/-- Witness for C8: a correctly signed `created` body sent with GET. -/
theorem wrong_method_not_allowed_witness :
    handleWebhook (sampleEnv (constantNetwork 200 uploadedBody)) sampleConfig
        ⟨bytesOf "GET", (signedPost createdBody).XHubSignature256, some createdBody⟩ =
      ⟨.response 405 (fprintln "only POST is supported"), [], false⟩ :=
  wrong_method_not_allowed (sampleEnv (constantNetwork 200 uploadedBody)) sampleConfig
    ⟨bytesOf "GET", (signedPost createdBody).XHubSignature256, some createdBody⟩ (by decide)

/-- C9: a POST request whose `X-Hub-Signature-256` header is absent or empty is
answered 403; the body is not read, and the answer is the same for every body
(readable or not) and every digest function, so nothing is verified. -/
theorem missing_signature_forbidden (env : Env) (cfg : config) (req : Request)
    (hm : req.Method = bytesOf "POST")
    (hs : req.XHubSignature256 = none ∨ req.XHubSignature256 = some []) :
    handleWebhook env cfg req =
      ⟨.response 403 (fprintln "Missing X-Hub-Signature-256"), [], false⟩ ∧
    (handleWebhook env cfg req).bodyRead = false ∧
    ∀ (env2 : Env) (body : Option Bytes),
      handleWebhook env2 cfg ⟨req.Method, req.XHubSignature256, body⟩ =
        handleWebhook env cfg req := by
  have key : ∀ (e : Env) (body : Option Bytes),
      handleWebhook e cfg ⟨req.Method, req.XHubSignature256, body⟩ =
        ⟨.response 403 (fprintln "Missing X-Hub-Signature-256"), [], false⟩ := by
    intro e body
    unfold handleWebhook
    rcases hs with h | h <;> simp [hm, h, headerGet]
  have h0 := key env req.Body
  refine ⟨h0, ?_, ?_⟩
  · rw [show req = ⟨req.Method, req.XHubSignature256, req.Body⟩ from rfl, h0]
  · intro env2 body
    rw [key env2 body, show req = ⟨req.Method, req.XHubSignature256, req.Body⟩ from rfl, h0]

/-- Witness for C9: no signature header, with a readable `created` body. -/
theorem missing_signature_forbidden_witness :
    handleWebhook (sampleEnv downNetwork) sampleConfig
        ⟨bytesOf "POST", none, some createdBody⟩ =
      ⟨.response 403 (fprintln "Missing X-Hub-Signature-256"), [], false⟩ :=
  (missing_signature_forbidden (sampleEnv downNetwork) sampleConfig
    ⟨bytesOf "POST", none, some createdBody⟩ rfl (Or.inl rfl)).1

/-! ### Decoding the event and the gate on the action -/

theorem foldl_storeEventMember_skip (eventFields : Bytes → JSON → Bool)
    (members : List (Bytes × JSON)) (st : SponsorshipEvent × Bool)
    (h : ∀ kv ∈ members,
      matchesField kv.1 (bytesOf "action") = false ∧ eventFields kv.1 kv.2 = true) :
    members.foldl (storeEventMember eventFields) st = st := by
  induction members generalizing st with
  | nil => rfl
  | cons kv rest ih =>
    have h1 := h kv (List.mem_cons_self _ _)
    rw [List.foldl_cons]
    have : storeEventMember eventFields st kv = st := by
      unfold storeEventMember
      simp [h1.1, h1.2]
    rw [this]
    exact ih st (fun x hx => h x (List.mem_cons_of_mem _ hx))

theorem unmarshalSponsorshipEvent_not_object (eventFields : Bytes → JSON → Bool) (B : Bytes)
    (v : JSON) (hp : parseJSON B = some v) (hn : v ≠ .null)
    (ho : ∀ members, v ≠ .object members) :
    unmarshalSponsorshipEvent eventFields B = .error .typeMismatch := by
  unfold unmarshalSponsorshipEvent
  rw [hp]
  cases v with
  | null => exact absurd rfl hn
  | object members => exact absurd rfl (ho members)
  | bool b => rfl
  | number r => rfl
  | string x => rfl
  | array xs => rfl

/-- Every correctly signed POST whose body is valid JSON other than `null` or an
object is answered 400, for every environment. -/
theorem non_object_body_rejected (env : Env) (cfg : config) (req : Request) (B sig : Bytes)
    (v : JSON)
    (hm : req.Method = bytesOf "POST") (hs : req.XHubSignature256 = some sig)
    (hb : req.Body = some B)
    (hv : verifySignature env.hmacSHA256 B sig cfg.WebHookSecret = true)
    (hp : parseJSON B = some v) (hn : v ≠ .null) (ho : ∀ members, v ≠ .object members) :
    handleWebhook env cfg req =
      ⟨.response 400 (fprintln "Failed to parse request body"), [], true⟩ :=
  handleWebhook_undecodable env cfg req B sig _ hm hs hb hv
    (unmarshalSponsorshipEvent_not_object env.eventFields B v hp hn ho)

/-- C6 (counterexample): the body `[]` is syntactically valid JSON without an
action field; correctly signed, it is answered 400 for a decode failure, not 200. -/
theorem valid_json_without_action_counterexample :
    parseJSON (bytesOf "[]") = some (.array []) ∧
    verifySignature sampleMAC (bytesOf "[]")
      (expectedMAC sampleMAC (bytesOf "[]") sampleConfig.WebHookSecret)
      sampleConfig.WebHookSecret = true ∧
    arrayBodyRun.outcome = .response 400 (fprintln "Failed to parse request body") ∧
    arrayBodyRun.outcome ≠ .response 200 (fprintln "OK") :=
  ⟨rfl, rfl, rfl, by decide⟩

/-- C6 (amended): a POST request with a verifying signature whose body is JSON
`null`, or a JSON object with no member matching `action` and whose members all
decode into the event type, is accepted as carrying no action: it is answered
200 and no outbound call is made. -/
theorem object_without_action_accepted (env : Env) (cfg : config) (req : Request)
    (B sig : Bytes)
    (hm : req.Method = bytesOf "POST") (hs : req.XHubSignature256 = some sig)
    (hb : req.Body = some B)
    (hv : verifySignature env.hmacSHA256 B sig cfg.WebHookSecret = true)
    (hp : parseJSON B = some .null ∨
      ∃ members, parseJSON B = some (.object members) ∧
        ∀ kv ∈ members,
          matchesField kv.1 (bytesOf "action") = false ∧ env.eventFields kv.1 kv.2 = true) :
    unmarshalSponsorshipEvent env.eventFields B = .ok ⟨none⟩ ∧
    handleWebhook env cfg req = ⟨.response 200 (fprintln "OK"), [], true⟩ := by
  have hd : unmarshalSponsorshipEvent env.eventFields B = .ok ⟨none⟩ := by
    unfold unmarshalSponsorshipEvent
    rcases hp with h | ⟨members, h, hk⟩
    · rw [h]
    · simp [h, foldl_storeEventMember_skip env.eventFields members _ hk]
  refine ⟨hd, ?_⟩
  rw [handleWebhook_decoded env cfg req B sig ⟨none⟩ hm hs hb hv hd]
  simp

/-- Witness for C6 (amended): the correctly signed body `{"sponsor":"x"}`. -/
theorem object_without_action_accepted_witness :
    handleWebhook (sampleEnv downNetwork) sampleConfig
        (signedPost (bytesOf "\x7b\"sponsor\":\"x\"\x7d")) =
      ⟨.response 200 (fprintln "OK"), [], true⟩ :=
  (object_without_action_accepted (sampleEnv downNetwork) sampleConfig
    (signedPost (bytesOf "\x7b\"sponsor\":\"x\"\x7d")) (bytesOf "\x7b\"sponsor\":\"x\"\x7d")
    (expectedMAC sampleMAC (bytesOf "\x7b\"sponsor\":\"x\"\x7d") sampleConfig.WebHookSecret)
    rfl rfl rfl rfl
    (Or.inr ⟨[(bytesOf "sponsor", .string (bytesOf "x"))], rfl, by decide⟩)).2

/-- C7: for a POST request with a verifying signature whose body decodes to an
event, `post` runs (and outbound calls occur) exactly when the action is present
and equal to `created`; for every other action, and for an absent one, there is
no outbound call and the answer is 200 with the line `OK`. -/
theorem publish_iff_created (env : Env) (cfg : config) (req : Request) (B sig : Bytes)
    (ev : SponsorshipEvent)
    (hm : req.Method = bytesOf "POST") (hs : req.XHubSignature256 = some sig)
    (hb : req.Body = some B)
    (hv : verifySignature env.hmacSHA256 B sig cfg.WebHookSecret = true)
    (hd : unmarshalSponsorshipEvent env.eventFields B = .ok ev) :
    ((handleWebhook env cfg req).calls ≠ [] ↔ ev.Action = some (bytesOf "created")) ∧
    (ev.Action = some (bytesOf "created") →
      (handleWebhook env cfg req).calls = (post env cfg).1) ∧
    (ev.Action ≠ some (bytesOf "created") →
      handleWebhook env cfg req = ⟨.response 200 (fprintln "OK"), [], true⟩) := by
  have hno : ev.Action ≠ some (bytesOf "created") →
      handleWebhook env cfg req = ⟨.response 200 (fprintln "OK"), [], true⟩ := by
    intro ha
    rw [handleWebhook_decoded env cfg req B sig ev hm hs hb hv hd, if_neg ha]
  refine ⟨⟨?_, ?_⟩, ?_, hno⟩
  · intro hc
    by_contra ha
    rw [hno ha] at hc
    exact hc rfl
  · intro ha
    rw [(handleWebhook_created env cfg req B sig ev hm hs hb hv hd ha).1]
    exact post_calls_ne_nil env cfg
  · intro ha
    exact (handleWebhook_created env cfg req B sig ev hm hs hb hv hd ha).1

/-- Witness for C7: the correctly signed body `{"action":"cancelled"}`. -/
theorem publish_iff_created_witness :
    handleWebhook (sampleEnv (constantNetwork 200 uploadedBody)) sampleConfig
        (signedPost cancelledBody) =
      ⟨.response 200 (fprintln "OK"), [], true⟩ :=
  (publish_iff_created (sampleEnv (constantNetwork 200 uploadedBody)) sampleConfig
    (signedPost cancelledBody) cancelledBody
    (expectedMAC sampleMAC cancelledBody sampleConfig.WebHookSecret)
    ⟨some (bytesOf "cancelled")⟩ rfl rfl rfl rfl rfl).2.2 (by decide)

/-- Further runs: the actions `Created` and the empty string are not
`created`; both are answered 200 with no outbound call. -/
theorem other_actions_run :
    handleWebhook (sampleEnv (constantNetwork 200 uploadedBody)) sampleConfig
        (signedPost (bytesOf "\x7b\"action\":\"Created\"\x7d")) =
      ⟨.response 200 (fprintln "OK"), [], true⟩ ∧
    handleWebhook (sampleEnv (constantNetwork 200 uploadedBody)) sampleConfig
        (signedPost (bytesOf "\x7b\"action\":\"\"\x7d")) =
      ⟨.response 200 (fprintln "OK"), [], true⟩ :=
  ⟨rfl, rfl⟩

/-- C10: for a POST request with a verifying signature and action `created`
whose upload yields a media identifier, once the post-creation call returns a
response whose body can be read, `post` returns nil and the handler answers 200
with the line `OK`, whatever the status code and the body of that response are. -/
theorem tweet_response_ignored (env : Env) (cfg : config) (req : Request) (B sig : Bytes)
    (ev : SponsorshipEvent) (resp : HTTPResponse) (respBody m : Bytes)
    (resp2 : HTTPResponse) (b2 : Bytes)
    (hm : req.Method = bytesOf "POST") (hs : req.XHubSignature256 = some sig)
    (hb : req.Body = some B)
    (hv : verifySignature env.hmacSHA256 B sig cfg.WebHookSecret = true)
    (hd : unmarshalSponsorshipEvent env.eventFields B = .ok ev)
    (ha : ev.Action = some (bytesOf "created"))
    (hu : env.roundTrip (uploadRequest env cfg) = some resp) (hr : resp.Body = some respBody)
    (hx : extractMediaID respBody = .ok m)
    (ht : env.roundTrip (tweetRequest cfg m) = some resp2) (hr2 : resp2.Body = some b2) :
    post env cfg = ([uploadRequest env cfg, tweetRequest cfg m], .returned none) ∧
    handleWebhook env cfg req =
      ⟨.response 200 (fprintln "OK"), [uploadRequest env cfg, tweetRequest cfg m], true⟩ := by
  have hp : post env cfg = ([uploadRequest env cfg, tweetRequest cfg m], .returned none) := by
    rw [post_upload_decoded env cfg resp respBody m hu hr hx]
    simp [ht, hr2]
  refine ⟨hp, ?_⟩
  rw [handleWebhook_decoded env cfg req B sig ev hm hs hb hv hd, if_pos ha, hp]

/-- Witness for C10: the post-creation call is answered with status 403 and an
error body, and the webhook is still answered 200. -/
theorem tweet_response_ignored_witness :
    (handleWebhook (sampleEnv rejectingTweets) sampleConfig (signedPost createdBody)).outcome =
      .response 200 (fprintln "OK") :=
  congrArg Handled.outcome
    (tweet_response_ignored (sampleEnv rejectingTweets) sampleConfig (signedPost createdBody)
      createdBody (expectedMAC sampleMAC createdBody sampleConfig.WebHookSecret)
      ⟨some (bytesOf "created")⟩ ⟨200, some uploadedBody⟩ uploadedBody (bytesOf "12345")
      ⟨403, some (bytesOf "\x7b\"title\":\"Forbidden\"\x7d")⟩ (bytesOf "\x7b\"title\":\"Forbidden\"\x7d")
      rfl rfl rfl rfl rfl rfl rfl rfl rfl rfl rfl).2

end SponsorshipNotify
